import Mathlib

/-!
Shallow embedding of the midnite-test event-ingestion and alert-rule system.

The data model follows `src/events/models.py`: an `Event` carries a user id, a
transaction type (deposit or withdraw), a decimal amount and a client-supplied
integer timestamp (non-negative, since the serializer enforces `min_value=0`).
Amounts are `Decimal` values with exactly two fractional digits (the serializer
enforces `decimal_places=2`), on which comparison and addition are exact; they
are modelled exactly as integer numbers of hundredths (`Int`), so the literal
`Decimal("100.00")` becomes `10000`, `Decimal("100.01")` becomes `10001`, and
`Decimal("200.00")` becomes `20000`.

The event ledger (the `Event` database table) is modelled as a `List Event`.
The ORM queries of `src/events/services.py` become list filters, and
`order_by("-timestamp")` becomes an insertion sort by descending timestamp.

The rule checks and `evaluate_all_rules` mirror `AlertRuleEngine` in
`src/events/services.py`; `ingest` mirrors the sequential behaviour of
`EventSerializer.validate` (`src/events/serializers.py`) followed by
`EventView.post` (`src/events/views.py`): amount positivity, the global
ordering pre-check, the uniqueness constraint on timestamps, then append and
rule evaluation over the ledger that already contains the new event.
-/

namespace Midnite

/-- Transaction types, from `Event.TRANSACTION_TYPES` in `models.py`. -/
inductive Tx where
  | deposit
  | withdraw
deriving DecidableEq, Repr

/-- An event row, from the `Event` model in `models.py`. -/
structure Event where
  user_id : Nat
  transaction_type : Tx
  amount : Int
  timestamp : Nat
deriving DecidableEq, Repr

/-- Insert an event into a list sorted by descending timestamp. -/
def insertDesc (e : Event) : List Event → List Event
  | [] => [e]
  | f :: rest =>
    if f.timestamp ≤ e.timestamp then e :: f :: rest else f :: insertDesc e rest

/-- Sort a list of events by descending timestamp (`order_by("-timestamp")`). -/
def sortDesc : List Event → List Event
  | [] => []
  | e :: rest => insertDesc e (sortDesc rest)

/-- `Event.objects.filter(user=user, timestamp__lte=timestamp)` in
`check_3_consecutive_withdraws`. -/
def eventsUpTo (ledger : List Event) (user : Nat) (timestamp : Nat) : List Event :=
  ledger.filter fun e => e.user_id == user && decide (e.timestamp ≤ timestamp)

/-- `Event.objects.filter(user=user, transaction_type="deposit",
timestamp__lte=timestamp)` in `check_3_consecutive_increasing_deposits`. -/
def depositsUpTo (ledger : List Event) (user : Nat) (timestamp : Nat) : List Event :=
  ledger.filter fun e =>
    e.user_id == user && e.transaction_type == Tx.deposit && decide (e.timestamp ≤ timestamp)

/-- The 30-second-window query of
`check_accumulative_deposit_over_200_in_30_seconds`: deposits of the user with
`window_start <= timestamp' <= timestamp`, where `window_start = timestamp - 30`
is computed in unbounded integers exactly as Python does (it may be negative). -/
def depositsInWindow (ledger : List Event) (user : Nat) (timestamp : Nat) : List Event :=
  ledger.filter fun e =>
    e.user_id == user && e.transaction_type == Tx.deposit &&
      decide ((timestamp : Int) - 30 ≤ (e.timestamp : Int)) &&
      decide (e.timestamp ≤ timestamp)

/-- Code 1100 (`AlertRuleEngine.check_withdraw_over_100`): the amount exceeds
`Decimal("100.00")`, i.e. 10000 hundredths. The ledger and user parameters reflect the data the check could read
(the database and the user row); its body reads neither, exactly as in the
source. -/
def check_withdraw_over_100 (_ledger : List Event) (_user : Nat) (amount : Int) : Bool :=
  decide (10000 < amount)

/-- Code 30 (`AlertRuleEngine.check_3_consecutive_withdraws`): take the last 3
events of the user with timestamp at most the current one, newest first; if
fewer than 3, no trigger; otherwise all 3 must be withdraws. -/
def check_3_consecutive_withdraws (ledger : List Event) (user : Nat) (timestamp : Nat) : Bool :=
  let recent_events := (sortDesc (eventsUpTo ledger user timestamp)).take 3
  if recent_events.length < 3 then false
  else recent_events.all fun e => e.transaction_type == Tx.withdraw

/-- Code 300 (`AlertRuleEngine.check_3_consecutive_increasing_deposits`): among
the user's deposits with timestamp at most the current one, newest first, need
at least 3, and the first three amounts strictly decreasing newest-to-oldest
(`amounts[0] > amounts[1] > amounts[2]`). -/
def check_3_consecutive_increasing_deposits (ledger : List Event) (user : Nat) (timestamp : Nat) :
    Bool :=
  let deposit_events := sortDesc (depositsUpTo ledger user timestamp)
  if deposit_events.length < 3 then false
  else
    match deposit_events.take 3 with
    | a :: b :: c :: _ => decide (b.amount < a.amount) && decide (c.amount < b.amount)
    | _ => false

/-- Code 123 (`AlertRuleEngine.check_accumulative_deposit_over_200_in_30_seconds`):
the sum of deposit amounts in the window exceeds `Decimal("200.00")`, i.e.
20000 hundredths. -/
def check_accumulative_deposit_over_200_in_30_seconds (ledger : List Event) (user : Nat)
    (timestamp : Nat) : Bool :=
  decide (20000 < ((depositsInWindow ledger user timestamp).map Event.amount).sum)

/-- `AlertRuleEngine.evaluate_all_rules`: appends 1100, 30, 300, 123 in that
order, each guarded by the transaction type and its check. -/
def evaluate_all_rules (ledger : List Event) (user : Nat) (transaction_type : Tx) (amount : Int)
    (timestamp : Nat) : List Nat :=
  (if transaction_type == Tx.withdraw && check_withdraw_over_100 ledger user amount
    then [1100] else []) ++
  (if transaction_type == Tx.withdraw && check_3_consecutive_withdraws ledger user timestamp
    then [30] else []) ++
  (if transaction_type == Tx.deposit && check_3_consecutive_increasing_deposits ledger user timestamp
    then [300] else []) ++
  (if transaction_type == Tx.deposit &&
      check_accumulative_deposit_over_200_in_30_seconds ledger user timestamp
    then [123] else [])

/-- `Event.objects.order_by("-timestamp").first()` -- the globally latest
timestamp, used by `EventSerializer.validate`. -/
def latestTimestamp (ledger : List Event) : Option Nat :=
  (sortDesc ledger).head?.map Event.timestamp

/-- The global ordering pre-check of `EventSerializer.validate`: reject when a
latest event exists and the new timestamp is not strictly greater. -/
def orderingViolated (ledger : List Event) (t : Nat) : Bool :=
  match latestTimestamp ledger with
  | some m => decide (t ≤ m)
  | none => false

/-- Outcome of one ingestion request, abstracting the HTTP responses of
`EventView.post`: 400 invalid payload, 400 ordering violation (raised inside
`EventSerializer.validate`), 409 duplicate timestamp (the `IntegrityError`
branch), or 200 with the alert codes and the ledger with the event appended. -/
inductive IngestResult where
  | invalidInput
  | orderingViolation
  | duplicateTimestamp
  | accepted (alert_codes : List Nat) (ledger : List Event)
deriving DecidableEq, Repr

/-- One sequential ingestion request (`EventView.post` plus serializer
validation): validate amount positivity, then the global ordering check, then
attempt the append (the uniqueness constraint on `timestamp` rejects
duplicates), and finally evaluate all rules against the ledger that already
contains the just-appended event. -/
def ingest (ledger : List Event) (user_id : Nat) (transaction_type : Tx) (amount : Int)
    (t : Nat) : IngestResult :=
  if amount ≤ 0 then IngestResult.invalidInput
  else if orderingViolated ledger t then IngestResult.orderingViolation
  else if ledger.any (fun e => e.timestamp == t) then IngestResult.duplicateTimestamp
  else
    IngestResult.accepted
      (evaluate_all_rules
        (⟨user_id, transaction_type, amount, t⟩ :: ledger) user_id transaction_type amount t)
      (⟨user_id, transaction_type, amount, t⟩ :: ledger)

/-- Three withdrawals at timestamps 1, 2, 3 (the rule-30 test vector). -/
def threeWithdrawals : List Event :=
  [⟨1, Tx.withdraw, 1000, 1⟩, ⟨1, Tx.withdraw, 1000, 2⟩, ⟨1, Tx.withdraw, 1000, 3⟩]

/-- Withdraw, deposit, withdraw at timestamps 1, 2, 3 (rule-30 vector with the
middle event replaced by a deposit). -/
def depositBetweenWithdrawals : List Event :=
  [⟨1, Tx.withdraw, 1000, 1⟩, ⟨1, Tx.deposit, 1000, 2⟩, ⟨1, Tx.withdraw, 1000, 3⟩]

/-- Deposits (1, 10.00), (2, 20.00), (3, 30.00) (the rule-300 test vector). -/
def risingDeposits : List Event :=
  [⟨1, Tx.deposit, 1000, 1⟩, ⟨1, Tx.deposit, 2000, 2⟩, ⟨1, Tx.deposit, 3000, 3⟩]

/-- Deposits (1, 10.00), (3, 20.00), (5, 30.00): an increasing deposit streak
with room for a withdraw at timestamp 4 between the last two. -/
def risingDepositsSpread : List Event :=
  [⟨1, Tx.deposit, 1000, 1⟩, ⟨1, Tx.deposit, 2000, 3⟩, ⟨1, Tx.deposit, 3000, 5⟩]

/-- Deposits (50, 100.00) and (60, 150.00) (the rule-123 test vector). -/
def burstDeposits : List Event :=
  [⟨1, Tx.deposit, 10000, 50⟩, ⟨1, Tx.deposit, 15000, 60⟩]

/-- Deposits (10, 100.00) and (60, 150.00): only the second falls in the
30-second window at timestamp 60. -/
def spreadDeposits : List Event :=
  [⟨1, Tx.deposit, 10000, 10⟩, ⟨1, Tx.deposit, 15000, 60⟩]

/-- A one-event ledger holding timestamp 5, for duplicate-submission runs. -/
def ledgerWithTimestamp5 : List Event := [⟨1, Tx.withdraw, 5000, 5⟩]

/-- Two withdrawals at timestamps 1 and 2: the user's two most recent prior
events before a third withdraw arrives at timestamp 3. -/
def priorWithdraws : List Event :=
  [⟨1, Tx.withdraw, 1000, 1⟩, ⟨1, Tx.withdraw, 1000, 2⟩]

/-- Two early deposits, both before timestamp 30, summing to 250.00. -/
def earlyDeposits : List Event :=
  [⟨1, Tx.deposit, 15000, 2⟩, ⟨1, Tx.deposit, 10000, 4⟩]

/-! ### Lemmas about the descending-timestamp sort -/

theorem length_insertDesc (e : Event) (l : List Event) :
    (insertDesc e l).length = l.length + 1 := by
  induction l with
  | nil => rfl
  | cons f rest ih =>
    simp only [insertDesc]
    split <;> simp [ih]

theorem length_sortDesc (l : List Event) : (sortDesc l).length = l.length := by
  induction l with
  | nil => rfl
  | cons e rest ih => simp [sortDesc, length_insertDesc, ih]

theorem mem_insertDesc {a e : Event} {l : List Event} :
    a ∈ insertDesc e l ↔ a = e ∨ a ∈ l := by
  induction l with
  | nil => simp [insertDesc]
  | cons f rest ih =>
    simp only [insertDesc]
    split
    · simp
    · simp [ih]
      tauto

theorem mem_sortDesc {a : Event} {l : List Event} : a ∈ sortDesc l ↔ a ∈ l := by
  induction l with
  | nil => simp [sortDesc]
  | cons e rest ih => simp [sortDesc, mem_insertDesc, ih]

theorem pairwise_insertDesc {e : Event} {l : List Event}
    (h : l.Pairwise fun x y => y.timestamp ≤ x.timestamp) :
    (insertDesc e l).Pairwise fun x y => y.timestamp ≤ x.timestamp := by
  induction l with
  | nil => simp [insertDesc]
  | cons f rest ih =>
    simp only [insertDesc]
    rcases List.pairwise_cons.mp h with ⟨hf, hrest⟩
    split
    · rename_i hle
      refine List.pairwise_cons.mpr ⟨?_, h⟩
      intro b hb
      rcases List.mem_cons.mp hb with hb | hb
      · exact hb ▸ hle
      · exact le_trans (hf b hb) hle
    · rename_i hgt
      refine List.pairwise_cons.mpr ⟨?_, ih hrest⟩
      intro b hb
      rcases mem_insertDesc.mp hb with hb | hb
      · exact hb ▸ le_of_not_le hgt
      · exact hf b hb

theorem pairwise_sortDesc (l : List Event) :
    (sortDesc l).Pairwise fun x y => y.timestamp ≤ x.timestamp := by
  induction l with
  | nil => simp [sortDesc]
  | cons e rest ih => exact pairwise_insertDesc ih

theorem sortDesc_head_ge {l : List Event} {h : Event} {t : List Event}
    (hs : sortDesc l = h :: t) {a : Event} (ha : a ∈ l) : a.timestamp ≤ h.timestamp := by
  have hmem : a ∈ sortDesc l := mem_sortDesc.mpr ha
  rw [hs] at hmem
  rcases List.mem_cons.mp hmem with hmem | hmem
  · exact hmem ▸ le_refl _
  · have hp := pairwise_sortDesc l
    rw [hs] at hp
    exact (List.pairwise_cons.mp hp).1 a hmem

theorem sortDesc_cons_of_max {e : Event} {l : List Event}
    (hmax : ∀ f ∈ l, f.timestamp ≤ e.timestamp) :
    sortDesc (e :: l) = e :: sortDesc l := by
  show insertDesc e (sortDesc l) = e :: sortDesc l
  cases hs : sortDesc l with
  | nil => rfl
  | cons f rest =>
    have hf : f ∈ l := mem_sortDesc.mp (hs ▸ List.mem_cons_self f rest)
    simp [insertDesc, hmax f hf]

theorem latestTimestamp_ge {l : List Event} {e : Event} (he : e ∈ l) :
    ∃ m, latestTimestamp l = some m ∧ e.timestamp ≤ m := by
  cases hs : sortDesc l with
  | nil =>
    exfalso
    have := length_sortDesc l
    rw [hs] at this
    cases l with
    | nil => exact absurd he (List.not_mem_nil e)
    | cons a rest => simp at this
  | cons h t =>
    refine ⟨h.timestamp, ?_, sortDesc_head_ge hs he⟩
    simp [latestTimestamp, hs]

/-! ### Lemmas about the queries and the rule list -/

theorem mem_eventsUpTo {l : List Event} {u ts : Nat} {e : Event} :
    e ∈ eventsUpTo l u ts ↔ e ∈ l ∧ e.user_id = u ∧ e.timestamp ≤ ts := by
  simp [eventsUpTo, List.mem_filter, and_assoc]

theorem mem_1100_iff (l : List Event) (u : Nat) (amt : Int) (ts : Nat) :
    1100 ∈ evaluate_all_rules l u Tx.withdraw amt ts ↔ 10000 < amt := by
  unfold evaluate_all_rules check_withdraw_over_100
  cases h2 : check_3_consecutive_withdraws l u ts <;>
    by_cases h1 : 10000 < amt <;>
      simp [h1, h2]

theorem mem_30_iff (l : List Event) (u : Nat) (amt : Int) (ts : Nat) :
    30 ∈ evaluate_all_rules l u Tx.withdraw amt ts ↔
      check_3_consecutive_withdraws l u ts = true := by
  unfold evaluate_all_rules
  cases h1 : check_withdraw_over_100 l u amt <;>
    cases h2 : check_3_consecutive_withdraws l u ts <;>
      simp [h1, h2]

theorem mem_300_iff (l : List Event) (u : Nat) (amt : Int) (ts : Nat) :
    300 ∈ evaluate_all_rules l u Tx.deposit amt ts ↔
      check_3_consecutive_increasing_deposits l u ts = true := by
  unfold evaluate_all_rules
  cases h1 : check_3_consecutive_increasing_deposits l u ts <;>
    cases h2 : check_accumulative_deposit_over_200_in_30_seconds l u ts <;>
      simp [h1, h2]

theorem mem_123_iff (l : List Event) (u : Nat) (amt : Int) (ts : Nat) :
    123 ∈ evaluate_all_rules l u Tx.deposit amt ts ↔
      check_accumulative_deposit_over_200_in_30_seconds l u ts = true := by
  unfold evaluate_all_rules
  cases h1 : check_3_consecutive_increasing_deposits l u ts <;>
    cases h2 : check_accumulative_deposit_over_200_in_30_seconds l u ts <;>
      simp [h1, h2]

theorem check30_iff (l : List Event) (u ts : Nat) :
    check_3_consecutive_withdraws l u ts = true ↔
      3 ≤ (eventsUpTo l u ts).length ∧
        ∀ e ∈ (sortDesc (eventsUpTo l u ts)).take 3, e.transaction_type = Tx.withdraw := by
  unfold check_3_consecutive_withdraws
  by_cases hlen : 3 ≤ (eventsUpTo l u ts).length
  · have hc : ¬ ((sortDesc (eventsUpTo l u ts)).take 3).length < 3 := by
      simp [List.length_take, length_sortDesc]
      omega
    simp [hc, hlen, List.all_eq_true, length_sortDesc]
  · have hc : ((sortDesc (eventsUpTo l u ts)).take 3).length < 3 := by
      simp [List.length_take, length_sortDesc]
      omega
    simp [hc, hlen, length_sortDesc]

theorem check300_iff (l : List Event) (u ts : Nat) :
    check_3_consecutive_increasing_deposits l u ts = true ↔
      ∃ a b c rest, sortDesc (depositsUpTo l u ts) = a :: b :: c :: rest ∧
        b.amount < a.amount ∧ c.amount < b.amount := by
  unfold check_3_consecutive_increasing_deposits
  rcases hd : sortDesc (depositsUpTo l u ts) with _ | ⟨a, _ | ⟨b, _ | ⟨c, rest⟩⟩⟩ <;>
    simp [hd]
  exact ⟨fun h => ⟨a, b, c, ⟨rfl, rfl, rfl⟩, h⟩, by rintro ⟨a1, b1, c1, ⟨rfl, rfl, rfl⟩, h⟩; exact h⟩

theorem check123_iff (l : List Event) (u ts : Nat) :
    check_accumulative_deposit_over_200_in_30_seconds l u ts = true ↔
      20000 < ((depositsInWindow l u ts).map Event.amount).sum := by
  simp [check_accumulative_deposit_over_200_in_30_seconds]

theorem depositsUpTo_cons_withdraw {w : Event} (hw : w.transaction_type = Tx.withdraw)
    (l : List Event) (u ts : Nat) :
    depositsUpTo (w :: l) u ts = depositsUpTo l u ts := by
  simp [depositsUpTo, List.filter_cons, hw,
    show (Tx.withdraw == Tx.deposit) = false from rfl]

theorem depositsInWindow_cons_withdraw {w : Event} (hw : w.transaction_type = Tx.withdraw)
    (l : List Event) (u ts : Nat) :
    depositsInWindow (w :: l) u ts = depositsInWindow l u ts := by
  simp [depositsInWindow, List.filter_cons, hw,
    show (Tx.withdraw == Tx.deposit) = false from rfl]

theorem check300_cons_withdraw {w : Event} (hw : w.transaction_type = Tx.withdraw)
    (l : List Event) (u ts : Nat) :
    check_3_consecutive_increasing_deposits (w :: l) u ts =
      check_3_consecutive_increasing_deposits l u ts := by
  unfold check_3_consecutive_increasing_deposits
  rw [depositsUpTo_cons_withdraw hw]

theorem check123_cons_withdraw {w : Event} (hw : w.transaction_type = Tx.withdraw)
    (l : List Event) (u ts : Nat) :
    check_accumulative_deposit_over_200_in_30_seconds (w :: l) u ts =
      check_accumulative_deposit_over_200_in_30_seconds l u ts := by
  unfold check_accumulative_deposit_over_200_in_30_seconds
  rw [depositsInWindow_cons_withdraw hw]

theorem evaluate_deposit_cons_withdraw {w : Event} (hw : w.transaction_type = Tx.withdraw)
    (l : List Event) (u : Nat) (amt : Int) (ts : Nat) :
    evaluate_all_rules (w :: l) u Tx.deposit amt ts =
      evaluate_all_rules l u Tx.deposit amt ts := by
  simp only [evaluate_all_rules, check300_cons_withdraw hw, check123_cons_withdraw hw,
    show (Tx.deposit == Tx.withdraw) = false from rfl, Bool.false_and, if_false]

theorem eventsUpTo_cons_self (l : List Event) (u ts : Nat) {e : Event}
    (hu : e.user_id = u) (hts : e.timestamp ≤ ts) :
    eventsUpTo (e :: l) u ts = e :: eventsUpTo l u ts := by
  simp [eventsUpTo, List.filter_cons, hu, hts]

theorem ingest_accepted_inv {ledger : List Event} {u : Nat} {tx : Tx} {amt : Int} {ts : Nat}
    {codes : List Nat} {l2 : List Event}
    (h : ingest ledger u tx amt ts = IngestResult.accepted codes l2) :
    l2 = ⟨u, tx, amt, ts⟩ :: ledger ∧
      codes = evaluate_all_rules (⟨u, tx, amt, ts⟩ :: ledger) u tx amt ts := by
  unfold ingest at h
  split at h
  · exact absurd h (by simp)
  split at h
  · exact absurd h (by simp)
  split at h
  · exact absurd h (by simp)
  injection h with h1 h2
  exact ⟨h2.symm, h1.symm⟩

theorem ingest_orderingViolation {ledger : List Event} {u : Nat} {tx : Tx} {amt : Int}
    {ts : Nat} (hamt : 0 < amt) {e : Event} (he : e ∈ ledger) (hle : ts ≤ e.timestamp) :
    ingest ledger u tx amt ts = IngestResult.orderingViolation := by
  obtain ⟨m, hm, hem⟩ := latestTimestamp_ge he
  have hov : orderingViolated ledger ts = true := by
    unfold orderingViolated
    rw [hm]
    simp
    omega
  simp [ingest, show ¬ (amt ≤ 0) from by omega, hov]

/-! ### Claim theorems -/

/-- C1: for a withdraw event, rule code 30 triggers if and only if the user has
at least 3 events of any type with timestamp at most the current one and the 3
most recent of them, by descending timestamp, are all withdraws; with fewer
than 3 such events the rule never triggers, and a non-withdraw event among the
last 3 prevents triggering. -/
theorem rule30_trigger_iff (ledger : List Event) (u : Nat) (amt : Int) (ts : Nat) :
    30 ∈ evaluate_all_rules ledger u Tx.withdraw amt ts ↔
      3 ≤ (eventsUpTo ledger u ts).length ∧
        ∀ e ∈ (sortDesc (eventsUpTo ledger u ts)).take 3,
          e.transaction_type = Tx.withdraw := by
  rw [mem_30_iff, check30_iff]

/-- C1 witness: three withdrawals at timestamps 1, 2, 3 trigger code 30 at
timestamp 3; replacing the middle event by a deposit prevents it. -/
theorem rule30_trigger_iff_witness :
    30 ∈ evaluate_all_rules threeWithdrawals 1 Tx.withdraw 1000 3 ∧
    30 ∉ evaluate_all_rules depositBetweenWithdrawals 1 Tx.withdraw 1000 3 := by
  constructor
  · exact (rule30_trigger_iff threeWithdrawals 1 1000 3).mpr (by decide)
  · intro h
    exact absurd ((rule30_trigger_iff depositBetweenWithdrawals 1 1000 3).mp h) (by decide)

/-- C2: for a deposit event, rule code 300 triggers if and only if the user has
at least 3 deposits with timestamp at most the current one and the 3 most
recent of them by descending timestamp have strictly increasing amounts as time
advances (newest strictly above mid strictly above oldest); moreover an
interleaved withdraw changes nothing about the outcome. -/
theorem rule300_trigger_iff (ledger : List Event) (u : Nat) (amt : Int) (ts : Nat) :
    (300 ∈ evaluate_all_rules ledger u Tx.deposit amt ts ↔
      ∃ a b c rest, sortDesc (depositsUpTo ledger u ts) = a :: b :: c :: rest ∧
        b.amount < a.amount ∧ c.amount < b.amount) ∧
    ∀ w : Event, w.transaction_type = Tx.withdraw →
      (300 ∈ evaluate_all_rules (w :: ledger) u Tx.deposit amt ts ↔
        300 ∈ evaluate_all_rules ledger u Tx.deposit amt ts) := by
  refine ⟨by rw [mem_300_iff, check300_iff], ?_⟩
  intro w hw
  rw [evaluate_deposit_cons_withdraw hw]

/-- C2 witness: deposits (1, 10.00), (3, 20.00), (5, 30.00) trigger code 300 at
timestamp 5, also after a withdraw is inserted between two of them at
timestamp 4. -/
theorem rule300_trigger_iff_witness :
    300 ∈ evaluate_all_rules risingDepositsSpread 1 Tx.deposit 3000 5 ∧
    300 ∈ evaluate_all_rules (⟨1, Tx.withdraw, 500, 4⟩ :: risingDepositsSpread) 1
      Tx.deposit 3000 5 := by
  have h := rule300_trigger_iff risingDepositsSpread 1 3000 5
  have htrig : 300 ∈ evaluate_all_rules risingDepositsSpread 1 Tx.deposit 3000 5 :=
    h.1.mpr ⟨⟨1, Tx.deposit, 3000, 5⟩, ⟨1, Tx.deposit, 2000, 3⟩, ⟨1, Tx.deposit, 1000, 1⟩, [],
      by decide, by decide, by decide⟩
  exact ⟨htrig, (h.2 ⟨1, Tx.withdraw, 500, 4⟩ rfl).mpr htrig⟩

/-- C3: for a deposit event at timestamp `ts`, rule code 123 triggers if and
only if the deposit amounts of the user in the closed window from `ts - 30` to
`ts` sum to strictly more than 200.00 (20000 hundredths); a withdraw added to
the ledger changes nothing, and a total of exactly 200.00 does not trigger. -/
theorem rule123_trigger_iff (ledger : List Event) (u : Nat) (amt : Int) (ts : Nat) :
    (123 ∈ evaluate_all_rules ledger u Tx.deposit amt ts ↔
      20000 < ((depositsInWindow ledger u ts).map Event.amount).sum) ∧
    (∀ w : Event, w.transaction_type = Tx.withdraw →
      evaluate_all_rules (w :: ledger) u Tx.deposit amt ts =
        evaluate_all_rules ledger u Tx.deposit amt ts) ∧
    (((depositsInWindow ledger u ts).map Event.amount).sum = 20000 →
      123 ∉ evaluate_all_rules ledger u Tx.deposit amt ts) := by
  refine ⟨by rw [mem_123_iff, check123_iff],
    fun w hw => evaluate_deposit_cons_withdraw hw ledger u amt ts, ?_⟩
  intro hsum h
  rw [mem_123_iff, check123_iff] at h
  omega

/-- C3 witness: deposits (50, 100.00) and (60, 150.00) trigger code 123 at
timestamp 60; deposits (10, 100.00) and (60, 150.00) do not, since only the
second lies in the window. -/
theorem rule123_trigger_iff_witness :
    123 ∈ evaluate_all_rules burstDeposits 1 Tx.deposit 15000 60 ∧
    123 ∉ evaluate_all_rules spreadDeposits 1 Tx.deposit 15000 60 := by
  have h1 := rule123_trigger_iff burstDeposits 1 15000 60
  have h2 := rule123_trigger_iff spreadDeposits 1 15000 60
  exact ⟨h1.1.mpr (by decide), fun h => absurd (h2.1.mp h) (by decide)⟩

/-- C7: a withdraw evaluation returns one of `[]`, `[1100]`, `[30]`,
`[1100, 30]` and a deposit evaluation one of `[]`, `[300]`, `[123]`,
`[300, 123]`: only codes of the matching type, in the fixed order, with at
most two elements and no duplicates. -/
theorem codes_by_transaction_type (ledger : List Event) (u : Nat) (amt : Int) (ts : Nat) :
    (evaluate_all_rules ledger u Tx.withdraw amt ts = [] ∨
      evaluate_all_rules ledger u Tx.withdraw amt ts = [1100] ∨
      evaluate_all_rules ledger u Tx.withdraw amt ts = [30] ∨
      evaluate_all_rules ledger u Tx.withdraw amt ts = [1100, 30]) ∧
    (evaluate_all_rules ledger u Tx.deposit amt ts = [] ∨
      evaluate_all_rules ledger u Tx.deposit amt ts = [300] ∨
      evaluate_all_rules ledger u Tx.deposit amt ts = [123] ∨
      evaluate_all_rules ledger u Tx.deposit amt ts = [300, 123]) := by
  constructor
  · cases h1 : check_withdraw_over_100 ledger u amt <;>
      cases h2 : check_3_consecutive_withdraws ledger u ts <;>
        simp [evaluate_all_rules, h1, h2]
  · cases h3 : check_3_consecutive_increasing_deposits ledger u ts <;>
      cases h4 : check_accumulative_deposit_over_200_in_30_seconds ledger u ts <;>
        simp [evaluate_all_rules, h3, h4]

/-- C8: rule code 1100 triggers for a withdraw if and only if its amount
strictly exceeds 100.00: amount 100.01 (10001 hundredths) triggers, exactly
100.00 (10000 hundredths) does not, whatever the history. -/
theorem rule1100_trigger_iff (ledger : List Event) (u : Nat) (amt : Int) (ts : Nat) :
    (1100 ∈ evaluate_all_rules ledger u Tx.withdraw amt ts ↔ 10000 < amt) ∧
    1100 ∈ evaluate_all_rules ledger u Tx.withdraw 10001 ts ∧
    1100 ∉ evaluate_all_rules ledger u Tx.withdraw 10000 ts := by
  refine ⟨mem_1100_iff ledger u amt ts, (mem_1100_iff ledger u 10001 ts).mpr (by omega), ?_⟩
  intro h
  exact absurd ((mem_1100_iff ledger u 10000 ts).mp h) (by omega)

/-- C8 witness: the characterization applied on the rule-30 test ledger. -/
theorem rule1100_trigger_iff_witness :
    1100 ∈ evaluate_all_rules threeWithdrawals 1 Tx.withdraw 10001 3 ∧
    1100 ∉ evaluate_all_rules threeWithdrawals 1 Tx.withdraw 10000 3 := by
  have h := rule1100_trigger_iff threeWithdrawals 1 15000 3
  exact ⟨h.2.1, h.2.2⟩

/-- C10: the rule-1100 check reads neither the ledger nor the user record: its
result, and hence whether code 1100 appears, is the same for any two ledger
states, users and timestamps once the amounts agree. -/
theorem rule1100_history_independent (l1 l2 : List Event) (u1 u2 : Nat) (amt : Int)
    (ts1 ts2 : Nat) :
    check_withdraw_over_100 l1 u1 amt = check_withdraw_over_100 l2 u2 amt ∧
    (1100 ∈ evaluate_all_rules l1 u1 Tx.withdraw amt ts1 ↔
      1100 ∈ evaluate_all_rules l2 u2 Tx.withdraw amt ts2) := by
  exact ⟨rfl, by rw [mem_1100_iff, mem_1100_iff]⟩

/-- C4: a submission whose timestamp is not strictly greater than every
timestamp already in the ledger — whoever owns the earlier event — is rejected
as an ordering violation, with nothing appended; on an empty ledger any
non-negative timestamp passes the check and the event is accepted. -/
theorem ordering_check_global (ledger : List Event) (u : Nat) (tx : Tx) (amt : Int) (ts : Nat)
    (hamt : 0 < amt) :
    ((∃ e ∈ ledger, ts ≤ e.timestamp) →
      ingest ledger u tx amt ts = IngestResult.orderingViolation) ∧
    (ledger = [] →
      ingest ledger u tx amt ts =
        IngestResult.accepted (evaluate_all_rules [⟨u, tx, amt, ts⟩] u tx amt ts)
          [⟨u, tx, amt, ts⟩]) := by
  constructor
  · rintro ⟨e, he, hle⟩
    exact ingest_orderingViolation hamt he hle
  · rintro rfl
    simp [ingest, show ¬ (amt ≤ 0) from by omega, orderingViolated, latestTimestamp, sortDesc]

/-- C4 witness: after user 1's event at timestamp 10, user 2's event at
timestamp 9 is rejected; on an empty ledger, the deposit of 42.00 at
timestamp 10 is accepted with no alert. -/
theorem ordering_check_global_witness :
    ingest [⟨1, Tx.deposit, 1000, 10⟩] 2 Tx.withdraw 500 9 =
      IngestResult.orderingViolation ∧
    ingest [] 1 Tx.deposit 4200 10 =
      IngestResult.accepted [] [⟨1, Tx.deposit, 4200, 10⟩] := by
  have h1 := ordering_check_global [⟨1, Tx.deposit, 1000, 10⟩] 2 Tx.withdraw 500 9 (by decide)
  have h2 := ordering_check_global [] 1 Tx.deposit 4200 10 (by decide)
  exact ⟨h1.1 ⟨⟨1, Tx.deposit, 1000, 10⟩, by decide, by decide⟩, (h2.2 rfl).trans (by decide)⟩

/-- C5 counterexample: with an event at timestamp 5 in the ledger, resubmitting
timestamp 5 is rejected by the global ordering pre-check as an ordering
violation, never reaching the duplicate-timestamp branch, contrary to the
claim that the attempt yields DuplicateTimestamp. -/
theorem duplicate_timestamp_counterexample :
    (∃ e ∈ ledgerWithTimestamp5, e.timestamp = 5) ∧
    ingest ledgerWithTimestamp5 2 Tx.deposit 1000 5 ≠ IngestResult.duplicateTimestamp ∧
    ingest ledgerWithTimestamp5 2 Tx.deposit 1000 5 = IngestResult.orderingViolation := by
  decide

/-- C5 (amended): submitting a timestamp that already exists anywhere in the
ledger never stores a second event: sequentially the attempt is rejected by
the ordering pre-check as an ordering violation (the duplicate-timestamp
outcome is reserved for storage-level races), so it is never accepted, no
event is retained and no rules are evaluated; hence at most one event ever
holds a given timestamp. -/
theorem duplicate_timestamp_rejected (ledger : List Event) (u : Nat) (tx : Tx) (amt : Int)
    (ts : Nat) (hamt : 0 < amt) (e : Event) (he : e ∈ ledger) (hts : e.timestamp = ts) :
    ingest ledger u tx amt ts = IngestResult.orderingViolation ∧
    ∀ codes l2, ingest ledger u tx amt ts ≠ IngestResult.accepted codes l2 := by
  have h : ingest ledger u tx amt ts = IngestResult.orderingViolation :=
    ingest_orderingViolation hamt he (le_of_eq hts.symm)
  refine ⟨h, fun codes l2 hc => ?_⟩
  rw [h] at hc
  exact absurd hc (by simp)

/-- C5 witness: the amended statement at the concrete duplicate timestamp 5. -/
theorem duplicate_timestamp_rejected_witness :
    ingest ledgerWithTimestamp5 3 Tx.withdraw 2000 5 = IngestResult.orderingViolation :=
  (duplicate_timestamp_rejected ledgerWithTimestamp5 3 Tx.withdraw 2000 5 (by decide)
    ⟨1, Tx.withdraw, 5000, 5⟩ (by decide) rfl).1

/-- C6: every accepted event is appended first and the rules are then evaluated
over the ledger that already contains it; in particular a withdraw accepted
when the user's 2 most recent prior events are withdraws triggers code 30. -/
theorem evaluate_after_append (ledger : List Event) (u : Nat) (tx : Tx) (amt : Int) (ts : Nat)
    (codes : List Nat) (l2 : List Event)
    (h : ingest ledger u tx amt ts = IngestResult.accepted codes l2) :
    l2 = ⟨u, tx, amt, ts⟩ :: ledger ∧
    codes = evaluate_all_rules l2 u tx amt ts ∧
    (tx = Tx.withdraw →
      ∀ a b rest, sortDesc (eventsUpTo ledger u ts) = a :: b :: rest →
        a.transaction_type = Tx.withdraw → b.transaction_type = Tx.withdraw →
        30 ∈ codes) := by
  obtain ⟨hl2, hcodes⟩ := ingest_accepted_inv h
  subst hl2
  refine ⟨rfl, hcodes, ?_⟩
  rintro rfl a b rest hsort ha hb
  rw [hcodes, mem_30_iff, check30_iff]
  have hcons : eventsUpTo ((⟨u, Tx.withdraw, amt, ts⟩ : Event) :: ledger) u ts =
      (⟨u, Tx.withdraw, amt, ts⟩ : Event) :: eventsUpTo ledger u ts :=
    eventsUpTo_cons_self ledger u ts rfl (le_refl ts)
  have hmax : ∀ f ∈ eventsUpTo ledger u ts,
      f.timestamp ≤ ((⟨u, Tx.withdraw, amt, ts⟩ : Event)).timestamp :=
    fun f hf => (mem_eventsUpTo.mp hf).2.2
  rw [hcons, sortDesc_cons_of_max hmax, hsort]
  constructor
  · have hlenEq := length_sortDesc (eventsUpTo ledger u ts)
    rw [hsort] at hlenEq
    simp only [List.length_cons] at hlenEq ⊢
    omega
  · intro e he
    have htake : ((⟨u, Tx.withdraw, amt, ts⟩ : Event) :: a :: b :: rest).take 3 =
        [⟨u, Tx.withdraw, amt, ts⟩, a, b] := rfl
    rw [htake] at he
    simp only [List.mem_cons, List.not_mem_nil, or_false] at he
    rcases he with rfl | rfl | rfl
    · rfl
    · exact ha
    · exact hb

/-- C6 witness: a withdraw at timestamp 3 after withdraws at 1 and 2 is
accepted with code 30. -/
theorem evaluate_after_append_witness :
    ingest priorWithdraws 1 Tx.withdraw 1000 3 =
      IngestResult.accepted [30] (⟨1, Tx.withdraw, 1000, 3⟩ :: priorWithdraws) ∧
    30 ∈ ([30] : List Nat) := by
  refine ⟨by decide, ?_⟩
  have h := evaluate_after_append priorWithdraws 1 Tx.withdraw 1000 3 [30]
    (⟨1, Tx.withdraw, 1000, 3⟩ :: priorWithdraws) (by decide)
  exact h.2.2 rfl ⟨1, Tx.withdraw, 1000, 2⟩ ⟨1, Tx.withdraw, 1000, 1⟩ [] (by decide) rfl rfl

/-- C9: the lower bound of the rule-123 window is not clamped at zero: for a
deposit at timestamp below 30 the window query degenerates to the plain
deposits-up-to query, so every deposit of the user with timestamp in `[0, ts]`
counts toward the 200.00 threshold, and the evaluation is total. -/
theorem window_lower_bound_unclamped (ledger : List Event) (u : Nat) (amt : Int) (ts : Nat)
    (h : ts < 30) :
    depositsInWindow ledger u ts = depositsUpTo ledger u ts ∧
    (123 ∈ evaluate_all_rules ledger u Tx.deposit amt ts ↔
      20000 < ((depositsUpTo ledger u ts).map Event.amount).sum) := by
  have hfe : depositsInWindow ledger u ts = depositsUpTo ledger u ts := by
    unfold depositsInWindow depositsUpTo
    apply List.filter_congr
    intro e _
    have h1 : ((ts : Int) - 30 ≤ (e.timestamp : Int)) := by omega
    rw [decide_eq_true h1]
    simp
  refine ⟨hfe, ?_⟩
  rw [mem_123_iff, check123_iff, hfe]

/-- C9 witness: deposits of 150.00 and 100.00 at timestamps 2 and 4 both fall
in the window at timestamp 4 and trigger code 123. -/
theorem window_lower_bound_unclamped_witness :
    depositsInWindow earlyDeposits 1 4 = depositsUpTo earlyDeposits 1 4 ∧
    123 ∈ evaluate_all_rules earlyDeposits 1 Tx.deposit 10000 4 := by
  have h := window_lower_bound_unclamped earlyDeposits 1 10000 4 (by decide)
  exact ⟨h.1, h.2.mpr (by decide)⟩

end Midnite
